import Mathlib

/-!
Shallow embedding of the gnet networking library (packet indices, the sliding
acknowledgement mask, parcel headers and signals, the connection-id allocator,
the pending-connection promotion and the basic demultiplexer), together with
proofs and refutations of the specified properties.

Machine integers are modelled as `Nat` with explicit truncation (`% 2 ^ w`)
where the source wraps.  Operations that can panic in a debug build of the
source (slice-length mismatches in `copy_from_slice`, subtract-with-overflow,
shift amounts at least the bit width, `assert!`) are modelled with `Option`
or with an explicit `panic` outcome constructor.
-/

/-- Distance between two wrapping 8-bit parcel indices, `(t - f) mod 256`
(source: `ParcelIndex::dist`, wrapping `u8` subtraction). Inputs are assumed
to be reduced below 256. -/
def ParcelIndex.dist (t f : Nat) : Nat :=
  (t + 256 - f) % 256

/-- Mask that acknowledges received parcels (source: `AckMask` in
`connection/ack.rs`, duplicated in `connection/parcel.rs`). -/
structure AckMask where
  lastIndex : Nat
  mask : Nat
  deriving DecidableEq, Repr

/-- Construct a mask that only acknowledges the provided parcel index
(source: `AckMask::new`). -/
def AckMask.new (acknowledgedParcel : Nat) : AckMask :=
  { lastIndex := acknowledgedParcel, mask := 0 }

/-- Check whether the mask acknowledges the provided parcel index
(source: `AckMask::acknowledges`). -/
def AckMask.acknowledges (m : AckMask) (index : Nat) : Bool :=
  let dist := ParcelIndex.dist m.lastIndex index
  if dist = 0 then true
  else if dist ≤ 64 then
    let bit := 1 <<< (dist - 1)
    m.mask &&& bit == bit
  else false

/-- Number of consecutive set bits of `m` counting down from bit `n - 1`
(helper for `leadingOnes64`). -/
def leadingOnesAux (m : Nat) : Nat → Nat
  | 0 => 0
  | n + 1 => if m.testBit n then leadingOnesAux m n + 1 else 0

/-- Number of leading one bits of a 64-bit value
(source: `u64::leading_ones`). -/
def leadingOnes64 (m : Nat) : Nat :=
  leadingOnesAux m 64

/-- Outcome of a mutating acknowledgement call.  `panic` records an arithmetic
overflow that aborts a debug build (`dist - 1` underflowing at distance 0, or
a `u64` shift by 64 or more bits); `err` is `Err(AckError)` with the mask left
unchanged; `ok` carries the updated mask. -/
inductive AckResult where
  | panic
  | err
  | ok (m : AckMask)
  deriving DecidableEq, Repr

/-- Acknowledge the provided parcel index (source: `AckMask::ack`).
Debug-build semantics: at distance 0 the expression `1 << (dist - 1)`
underflows; in the window-sliding branch `self.mask <<= d + 1` is an
overflowing shift whenever `d + 1 ≥ 64`. -/
def AckMask.ack (m : AckMask) (index : Nat) : AckResult :=
  let dist := ParcelIndex.dist m.lastIndex index
  if dist ≤ 64 then
    if dist = 0 then .panic
    else .ok { lastIndex := m.lastIndex, mask := m.mask ||| (1 <<< (dist - 1)) }
  else if dist ≤ 127 then .ok m
  else
    let d := 255 - dist
    if d ≤ leadingOnes64 m.mask then
      if 64 ≤ d + 1 then .panic
      else .ok { lastIndex := index,
                 mask := ((m.mask <<< (d + 1)) % 2 ^ 64) ||| (1 <<< d) }
    else .err

/-- Acknowledge the provided parcel index without the window check
(source: `AckMask::unchecked_ack`), with the same debug-build overflow
behaviour as `AckMask.ack`. -/
def AckMask.uncheckedAck (m : AckMask) (index : Nat) : AckResult :=
  let dist := ParcelIndex.dist m.lastIndex index
  if dist ≤ 64 then
    if dist = 0 then .panic
    else .ok { lastIndex := m.lastIndex, mask := m.mask ||| (1 <<< (dist - 1)) }
  else if 128 ≤ dist then
    let d := 255 - dist
    if 64 ≤ d + 1 then .panic
    else .ok { lastIndex := index,
               mask := ((m.mask <<< (d + 1)) % 2 ^ 64) ||| (1 <<< d) }
  else .ok m

/-- Model of `<[u8]>::copy_from_slice`: copying panics (`none`) unless source
and destination have the same length. -/
def copyFromSlice (dst src : List Nat) : Option (List Nat) :=
  if dst.length = src.length then some src else none

/-- Little-endian bytes of a `u64` (source: `u64::to_le_bytes`). -/
def u64ToLeBytes (x : Nat) : List Nat :=
  (List.range 8).map fun i => x / 256 ^ i % 256

/-- Nat from little-endian bytes (source: `uN::from_le_bytes`). -/
def natFromLeBytes (bytes : List Nat) : Nat :=
  bytes.foldr (fun b acc => b + 256 * acc) 0

/-- Little-endian serialization of an `AckMask`
(source: `AckMask::to_le_bytes`).  The source copies the eight mask bytes
into the whole nine-byte array with `copy_from_slice`, then stores
`last_index` in byte 8; `none` models the `copy_from_slice` length-mismatch
panic. -/
def AckMask.toLeBytes (m : AckMask) : Option (List Nat) :=
  (copyFromSlice (List.replicate 9 0) (u64ToLeBytes m.mask)).map
    fun bytes => bytes.set 8 m.lastIndex

/-- Deserialize an `AckMask` from nine little-endian bytes
(source: `AckMask::from_le_bytes`). -/
def AckMask.fromLeBytes (bytes : List Nat) : AckMask :=
  { lastIndex := bytes.getD 8 0, mask := natFromLeBytes (bytes.take 8) }

namespace Signal

/-- Bit masks of the parcel signalling bitpattern
(source: `connection/parcel/signal.rs`). -/
def CONNECTION_MASK : Nat := 1 <<< 0

def ANSWER_MASK : Nat := 1 <<< 1

def RESERVED_MASK : Nat := 1 <<< 2

def INDEX_MASK : Nat := 1 <<< 3

def ACKNOWLEDGE_MASK : Nat := 1 <<< 4

def MESSAGE_MASK : Nat := 1 <<< 5

def STREAM_MASK : Nat := 1 <<< 6

def PARITY_MASK : Nat := 1 <<< 7

/-- Signal requesting a new connection (source: `Signal::request_connection`). -/
def requestConnection : Nat := PARITY_MASK

/-- Signal accepting a connection request (source: `Signal::accept_connection`). -/
def acceptConnection : Nat := CONNECTION_MASK ||| ANSWER_MASK ||| PARITY_MASK

/-- Signal rejecting a connection request (source: `Signal::reject_connection`). -/
def rejectConnection : Nat := ANSWER_MASK

/-- Signal of a parcel associated with an established connection
(source: `Signal::connected`). -/
def connected : Nat := CONNECTION_MASK

/-- Source: `Signal::is_connected`. -/
def isConnected (bits : Nat) : Bool :=
  bits &&& CONNECTION_MASK == CONNECTION_MASK

/-- Source: `Signal::is_answer`. -/
def isAnswer (bits : Nat) : Bool :=
  bits &&& ANSWER_MASK == ANSWER_MASK

/-- Source: `Signal::is_indexed`. -/
def isIndexed (bits : Nat) : Bool :=
  bits &&& (CONNECTION_MASK ||| INDEX_MASK) == (CONNECTION_MASK ||| INDEX_MASK)

/-- Source: `Signal::has_ack_mask`. -/
def hasAckMask (bits : Nat) : Bool :=
  bits &&& (CONNECTION_MASK ||| ACKNOWLEDGE_MASK)
    == (CONNECTION_MASK ||| ACKNOWLEDGE_MASK)

/-- Source: `Signal::has_message`. -/
def hasMessage (bits : Nat) : Bool :=
  bits &&& MESSAGE_MASK == MESSAGE_MASK

/-- Source: `Signal::has_stream`. -/
def hasStream (bits : Nat) : Bool :=
  bits &&& (CONNECTION_MASK ||| INDEX_MASK ||| STREAM_MASK)
    == (CONNECTION_MASK ||| INDEX_MASK ||| STREAM_MASK)

/-- Number of set bits of an 8-bit value (source: `u8::count_ones`). -/
def countOnes8 (bits : Nat) : Nat :=
  (List.range 8).foldl (fun acc i => acc + (bits >>> i) % 2) 0

/-- Source: `Signal::has_correct_parity`, `self.bits.count_ones() & 1 == 1`. -/
def hasCorrectParity (bits : Nat) : Bool :=
  countOnes8 bits &&& 1 == 1

/-- Source: `Signal::with_correct_parity`. -/
def withCorrectParity (bits : Nat) : Nat :=
  if hasCorrectParity bits then bits else bits ^^^ PARITY_MASK

/-- Source: `Signal::indexed`.  The debug assertion that the signal is
connected holds at every use below. -/
def indexed (bits : Nat) : Nat :=
  withCorrectParity (bits ||| INDEX_MASK)

/-- Source: `Signal::with_ack_mask`. -/
def withAckMask (bits : Nat) : Nat :=
  withCorrectParity (bits ||| ACKNOWLEDGE_MASK)

/-- Source: `Signal::with_message`. -/
def withMessage (bits : Nat) : Nat :=
  withCorrectParity (bits ||| MESSAGE_MASK)

/-- Source: `Signal::with_stream`.  Note the source ors in
`ACKNOWLEDGE_MASK`, not `STREAM_MASK`; the debug assertions that the signal
is connected and indexed hold at every use below. -/
def withStream (bits : Nat) : Nat :=
  withCorrectParity (bits ||| ACKNOWLEDGE_MASK)

/-- Source: `SignalValidationError` in `connection/parcel/signal.rs`. -/
inductive ValidationError where
  | DisconnectedIndex
  | DisconnectedAcknowledge
  | DisconnectedStream
  | UnreliableStream
  | InvalidParity
  deriving DecidableEq, Repr

/-- Source: `Signal::validate`. -/
def validate (bits : Nat) : Except ValidationError Unit :=
  if isConnected bits then
    if hasStream bits && !isIndexed bits then .error .UnreliableStream
    else if !hasCorrectParity bits then .error .InvalidParity
    else .ok ()
  else
    if isIndexed bits then .error .DisconnectedIndex
    else if hasAckMask bits then .error .DisconnectedAcknowledge
    else if hasStream bits then .error .DisconnectedStream
    else if !hasCorrectParity bits then .error .InvalidParity
    else .ok ()

/-- Source: `Signal::is_valid`, `self.validate() == Ok(())`. -/
def isValid (bits : Nat) : Bool :=
  match validate bits with
  | .ok _ => true
  | .error _ => false

end Signal

/-- Parcel header (source: `Header` in `connection/parcel/header.rs`).
The signal is the raw `u8` bitpattern. -/
structure Header where
  signal : Nat
  connectionId : Nat
  handshakeId : Nat
  index : Nat
  ackMask : AckMask
  messageSize : Nat
  streamSize : Nat
  deriving DecidableEq, Repr

/-- Source: `Header::default`. -/
def Header.default : Header :=
  { signal := 0, connectionId := 0, handshakeId := 0, index := 0,
    ackMask := AckMask.new 0, messageSize := 0, streamSize := 0 }

/-- Source: `Header::request_connection`. -/
def Header.requestConnection (handshakeId : Nat) : Header :=
  { Header.default with signal := Signal.requestConnection,
                        handshakeId := handshakeId }

/-- Source: `Header::accept_connection`. -/
def Header.acceptConnection (handshakeId connectionId : Nat) : Header :=
  { Header.default with signal := Signal.acceptConnection,
                        connectionId := connectionId,
                        handshakeId := handshakeId }

/-- Source: `Header::with_message`. -/
def Header.withMessage (h : Header) (size : Nat) : Header :=
  { h with signal := Signal.withMessage h.signal, messageSize := size }

/-- Source: `Header::with_stream`. -/
def Header.withStream (h : Header) : Header :=
  { h with signal := Signal.withStream h.signal }

/-- Number of bytes the signal-implied header takes up in a parcel
(source: `signalled_size` in `connection/parcel/header.rs`). -/
def signalledSize (signal : Nat) : Nat :=
  1
    + (if Signal.isConnected signal then
        2 + 4 * (if Signal.isAnswer signal then 1 else 0)
      else 4)
    + (if Signal.isIndexed signal then 1 else 0)
    + 9 * (if Signal.hasAckMask signal then 1 else 0)
    + 2 * (if Signal.hasMessage signal then 1 else 0)
    + 2 * (if Signal.hasStream signal then 1 else 0)

/-- Source: `Header::size`. -/
def Header.size (h : Header) : Nat :=
  signalledSize h.signal

/-- Little-endian bytes of a `u16` (source: `u16::to_le_bytes`). -/
def u16ToLeBytes (x : Nat) : List Nat :=
  [x % 256, x / 256 % 256]

/-- Little-endian bytes of a `u32` (source: `u32::to_le_bytes`). -/
def u32ToLeBytes (x : Nat) : List Nat :=
  [x % 256, x / 256 % 256, x / 256 ^ 2 % 256, x / 256 ^ 3 % 256]

/-- Write the header to the beginning of the provided buffer
(source: `Header::write_to`).  Returns the resulting buffer contents and the
number of header bytes; `none` models a panic (the `assert!` on the buffer
length, or the unconditional `AckMask::to_le_bytes` panic when the signal
carries an ack mask). -/
def Header.writeTo (h : Header) (buffer : List Nat) : Option (List Nat × Nat) :=
  let size := h.size
  if buffer.length < size then none
  else
    let head :=
      [h.signal]
        ++ (if Signal.isConnected h.signal then
              u16ToLeBytes h.connectionId
                ++ (if Signal.isAnswer h.signal then
                      u32ToLeBytes h.handshakeId
                    else [])
            else u32ToLeBytes h.handshakeId)
        ++ (if Signal.isIndexed h.signal then [h.index] else [])
    match (if Signal.hasAckMask h.signal then h.ackMask.toLeBytes
           else some []) with
    | none => none
    | some ackBytes =>
      some (head ++ ackBytes
              ++ (if Signal.hasMessage h.signal then u16ToLeBytes h.messageSize
                  else [])
              ++ (if Signal.hasStream h.signal then u16ToLeBytes h.streamSize
                  else [])
              ++ buffer.drop size,
            size)

/-- Source: `ReadError` in `connection/parcel/header.rs`. -/
inductive ReadError where
  | InvalidSignal
  | InsufficientBufferLen
  deriving DecidableEq, Repr

/-- Outcome of `Header::read_from`; `panic` models indexing `buffer[0]` on an
empty buffer. -/
inductive ReadResult where
  | panic
  | err (e : ReadError)
  | ok (h : Header) (size : Nat)
  deriving DecidableEq, Repr

/-- Read a header from the beginning of the provided buffer
(source: `Header::read_from`). -/
def Header.readFrom (buffer : List Nat) : ReadResult :=
  match buffer with
  | [] => .panic
  | signal :: _ =>
    if !Signal.isValid signal then .err .InvalidSignal
    else
      let size := signalledSize signal
      if buffer.length < size then .err .InsufficientBufferLen
      else
        let rest := buffer.drop 1
        let connectionId :=
          if Signal.isConnected signal then natFromLeBytes (rest.take 2) else 0
        let rest := if Signal.isConnected signal then rest.drop 2 else rest
        let handshakeId :=
          if Signal.isConnected signal then
            if Signal.isAnswer signal then natFromLeBytes (rest.take 4) else 0
          else natFromLeBytes (rest.take 4)
        let rest :=
          if Signal.isConnected signal then
            if Signal.isAnswer signal then rest.drop 4 else rest
          else rest.drop 4
        let index := if Signal.isIndexed signal then rest.getD 0 0 else 0
        let rest := if Signal.isIndexed signal then rest.drop 1 else rest
        let ackMask :=
          if Signal.hasAckMask signal then AckMask.fromLeBytes (rest.take 9)
          else AckMask.new 0
        let rest := if Signal.hasAckMask signal then rest.drop 9 else rest
        let messageSize :=
          if Signal.hasMessage signal then natFromLeBytes (rest.take 2) else 0
        let rest := if Signal.hasMessage signal then rest.drop 2 else rest
        let streamSize :=
          if Signal.hasStream signal then natFromLeBytes (rest.take 2) else 0
        .ok { signal := signal, connectionId := connectionId,
              handshakeId := handshakeId, index := index, ackMask := ackMask,
              messageSize := messageSize, streamSize := streamSize } size

namespace SignalBits

/-- Source: constants in `packet.rs` module `signal`.  `ZERO_BITS` is
`0xFFFF << 25` truncated to `u32`. -/
def CONNECTION_REQUEST_BIT : Nat := 1 <<< 22

def CONNECTION_CLOSED_BIT : Nat := 1 <<< 23

def SYNCHRONIZED_BIT : Nat := 1 <<< 24

def ZERO_BITS : Nat := (0xFFFF <<< 25) % 2 ^ 32

def BYTE_COUNT_BITS : Nat := 0x7FF

/-- Source: `SignalBits::get_parcel_byte_count`. -/
def getParcelByteCount (bits : Nat) : Nat :=
  (bits &&& (BYTE_COUNT_BITS <<< 11)) >>> 11

/-- Source: `SignalBits::get_stream_byte_count`. -/
def getStreamByteCount (bits : Nat) : Nat :=
  bits &&& BYTE_COUNT_BITS

/-- Source: `SignalBits::is_valid_connectionless`. -/
def isValidConnectionless (bits : Nat) : Bool :=
  let criticalBits :=
    ZERO_BITS ||| SYNCHRONIZED_BIT ||| CONNECTION_CLOSED_BIT
      ||| CONNECTION_REQUEST_BIT
  bits &&& criticalBits == CONNECTION_REQUEST_BIT

/-- Source: `SignalBits::is_valid`. -/
def isValid (bits : Nat) : Bool :=
  let criticalBits :=
    ZERO_BITS ||| SYNCHRONIZED_BIT ||| CONNECTION_CLOSED_BIT
      ||| CONNECTION_REQUEST_BIT
  let masked := bits &&& criticalBits
  masked == 0 || masked == SYNCHRONIZED_BIT || masked == CONNECTION_CLOSED_BIT
    || masked == CONNECTION_REQUEST_BIT

end SignalBits

/-- Modular comparison of wrapping 8-bit packet indices
(source: `impl Ord for PacketIndex` in `packet.rs`): the wrapping difference
`self - other` is compared against `u8::MAX / 2 = 127`.  Inputs are assumed
to be reduced below 256. -/
def PacketIndex.cmp (a b : Nat) : Ordering :=
  let x := (a + 256 - b) % 256
  if x = 0 then .eq
  else if x < 127 then .gt
  else .lt

/-- Header of a network packet (source: `PacketHeader` in `packet.rs`).
The prelude is four raw bytes. -/
structure PacketHeader where
  connectionId : Nat
  packetId : Nat
  ackPacketId : Nat
  ackPacketMask : Nat
  signal : Nat
  prelude : List Nat
  deriving DecidableEq, Repr

/-- Source: `PacketHeader::is_valid`. -/
def PacketHeader.isValid (h : PacketHeader) : Bool :=
  if h.connectionId = 0 then SignalBits.isValidConnectionless h.signal
  else SignalBits.isValid h.signal

/-- Source: `OutOfIdsError` in `id.rs`. -/
inductive OutOfIdsError where
  | outOfIds
  deriving DecidableEq, Repr

/-- Manager for connection ids (source: `Allocator` in `id.rs`). -/
structure Allocator where
  lastId : Nat
  freeIds : List Nat
  deriving DecidableEq, Repr

/-- Assign a new connection id (source: `Allocator::allocate`).  `Vec::pop`
removes and returns the last element of the free list. -/
def Allocator.allocate (a : Allocator) : Except OutOfIdsError (Nat × Allocator) :=
  match a.freeIds.getLast? with
  | none =>
    if a.lastId = 65535 then .error .outOfIds
    else .ok (a.lastId + 1, { lastId := a.lastId + 1, freeIds := a.freeIds })
  | some id => .ok (id, { lastId := a.lastId, freeIds := a.freeIds.dropLast })

/-- Body of the coalescing loop of `Allocator::free`, with explicit structural
fuel: each iteration pops one element, so `free.length` steps always
suffice. -/
def coalesceGo : Nat → Nat → List Nat → Nat × List Nat
  | 0, lastId, free => (lastId, free)
  | fuel + 1, lastId, free =>
    match free.getLast? with
    | some x =>
      if x = lastId then coalesceGo fuel (lastId - 1) free.dropLast
      else (lastId, free)
    | none => (lastId, free)

/-- The coalescing loop of `Allocator::free`: while the largest free id equals
`last_id`, pop it and decrement `last_id`.  On well-formed states the `u16`
decrement never underflows; `Nat` subtraction is used. -/
def coalesceAux (lastId : Nat) (free : List Nat) : Nat × List Nat :=
  coalesceGo free.length lastId free

/-- Mark the provided connection id as free (source: `Allocator::free`).
The sorted insert position is the first element greater than `id`. -/
def Allocator.free (a : Allocator) (id : Nat) : Allocator :=
  if id = a.lastId then
    let r := coalesceAux (a.lastId - 1) a.freeIds
    { lastId := r.1, freeIds := r.2 }
  else
    match a.freeIds.findIdx? (fun x => id < x) with
    | some pos => { lastId := a.lastId, freeIds := a.freeIds.insertIdx pos id }
    | none => { lastId := a.lastId, freeIds := a.freeIds ++ [id] }

/-- Size in bytes of the `#[repr(C)]` `PacketHeader`: `u16`, `u8`, `u8`,
padding to 8, `u64`, `u32`, `[u8; 4]` give 24 bytes. -/
def packetHeaderByteCount : Nat := 24

/-- Data segment of a packet (source: `packet::get_data_segment`). -/
def getDataSegment (packet : List Nat) : List Nat :=
  packet.drop packetHeaderByteCount

/-- Connection id of a packet (source: `packet::read_connection_id`, reading
the little-endian `u16` at offset 0 of the `#[repr(C)]` header). -/
def readConnectionId (packet : List Nat) : Nat :=
  natFromLeBytes (packet.take 2)

/-- Outcome of `PendingConnection::try_promote` (source: `connection.rs`).
The variants mirror `PendingConnectionError`; `invalidAnswer` exists in the
error enum but is never produced by `try_promote`. -/
inductive PromoteResult where
  | noAnswer
  | invalidAnswer
  | predicateFail
  | promoted (connectionId : Nat)
  deriving DecidableEq, Repr

/-- Attempt to promote a pending connection
(source: `PendingConnection::try_promote` in `connection.rs`), modelled on
the packet buffer contents after `recv_all` and the caller-supplied
predicate.  `packetByteCount` is `T::PACKET_BYTE_COUNT`. -/
def tryPromote (packetByteCount : Nat) (buffer : List Nat)
    (pred : List Nat → Bool) : PromoteResult :=
  if buffer.isEmpty then .noAnswer
  else
    let packet := buffer.take packetByteCount
    if pred (getDataSegment packet) then .promoted (readConnectionId packet)
    else .predicateFail

/-- Modelled from the spec: what §4.H calls a valid accept datagram.  The
accept answer carries the newly assigned connection id, which the allocator
draws from the pool `[1, 65535]` (`0` means no connection), so an accept
datagram announces a nonzero connection id in its header. -/
def isSpecAcceptAnswer (packet : List Nat) : Bool :=
  decide (readConnectionId packet ≠ 0)

/-- Per-connection buffer of the basic demultiplexer
(source: `Demultiplexer` in `endpoint/demux/basic.rs`): the entry of one
allowed connection key, a shared byte vector and the datagram info vector of
(length, source address) pairs.  Addresses are modelled as `Nat`. -/
structure DemuxQueue where
  bytes : List Nat
  infos : List (Nat × Nat)
  deriving DecidableEq, Repr

/-- Buffer a datagram (source: `Demultiplexer::push`): the bytes are appended
to the shared byte vector and (length, address) is pushed onto the info
vector. -/
def DemuxQueue.push (q : DemuxQueue) (addr : Nat) (datagram : List Nat) :
    DemuxQueue :=
  { bytes := q.bytes ++ datagram,
    infos := q.infos ++ [(datagram.length, addr)] }

/-- Pop a buffered datagram (source: `Demultiplexer::pop`): `infos.pop()`
takes the last info record and the returned bytes are copied from the tail
of the shared byte vector, `bytes[bytes.len() - len ..]`, which is never
truncated.  The returned list is the content copied into the caller's
buffer (whose length must equal the recorded datagram length). -/
def DemuxQueue.pop (q : DemuxQueue) :
    Option ((Nat × Nat) × List Nat × DemuxQueue) :=
  match q.infos.getLast? with
  | none => none
  | some info =>
    some (info, q.bytes.drop (q.bytes.length - info.1),
          { bytes := q.bytes, infos := q.infos.dropLast })

/-- The `k` most-significant bits of a 64-bit mask are all ones (the side
condition language of the ack-window slide in the specification). -/
def topBits (k mask : Nat) : Prop :=
  k ≤ 64 ∧ ∀ j, j < 64 → 64 ≤ j + k → mask.testBit j = true

instance (k mask : Nat) : Decidable (topBits k mask) := by
  unfold topBits
  infer_instance

/-- Proof-side recursive form of the sorted insert that `Allocator.free`
performs through `findIdx?` and `insertIdx`; the two are proved equal in
`free_insert_eq_sortedInsert` below. -/
def sortedInsert : List Nat → Nat → List Nat
  | [], id => [id]
  | x :: xs, id => if id < x then id :: x :: xs else x :: sortedInsert xs id

/-- Well-formedness of an allocator state together with the multiset of ids
currently held by live connections: free ids are strictly sorted, ids are
drawn from `[1, last_id]`, the free list sits strictly below the high-water
mark, and no id is simultaneously free and live. -/
def AllocWF (a : Allocator) (live : List Nat) : Prop :=
  a.lastId ≤ 65535 ∧
  a.freeIds.Sorted (· < ·) ∧
  (∀ x ∈ a.freeIds, 1 ≤ x ∧ x < a.lastId) ∧
  (∀ x ∈ live, 1 ≤ x ∧ x ≤ a.lastId) ∧
  live.Nodup ∧
  (∀ x ∈ a.freeIds, x ∉ live)

instance (a : Allocator) (live : List Nat) : Decidable (AllocWF a live) := by
  unfold AllocWF
  infer_instance

/-- A concrete connectionless packet header whose signal carries the
connection-request bit and a parcel byte count of one. -/
def connectionlessParcelHeader : PacketHeader :=
  { connectionId := 0, packetId := 0, ackPacketId := 0, ackPacketMask := 0,
    signal := (1 <<< 22) ||| (1 <<< 11), prelude := [0, 0, 0, 0] }

/-! Helper lemmas. -/

theorem leadingOnesAux_le (m n : Nat) : leadingOnesAux m n ≤ n := by
  induction n with
  | zero => simp [leadingOnesAux]
  | succ n ih =>
    unfold leadingOnesAux
    split
    · omega
    · omega

theorem le_leadingOnesAux_iff (m : Nat) :
    ∀ k n : Nat, k ≤ n →
      (k ≤ leadingOnesAux m n ↔ ∀ j, j < n → n ≤ j + k → m.testBit j = true) := by
  intro k
  induction k with
  | zero =>
    intro n _
    constructor
    · intro _ j hj hnj
      exact absurd hj (by omega)
    · intro _
      exact Nat.zero_le _
  | succ k ih =>
    intro n hk
    obtain ⟨n, rfl⟩ : ∃ n', n = n' + 1 := ⟨n - 1, by omega⟩
    by_cases hbit : m.testBit n
    · rw [show leadingOnesAux m (n + 1) = leadingOnesAux m n + 1 by
        simp [leadingOnesAux, hbit]]
      rw [Nat.succ_le_succ_iff, ih n (by omega)]
      constructor
      · intro hall j hj hnj
        rcases Nat.lt_succ_iff_lt_or_eq.mp hj with h | rfl
        · exact hall j h (by omega)
        · exact hbit
      · intro hall j hj hnj
        exact hall j (by omega) (by omega)
    · rw [show leadingOnesAux m (n + 1) = 0 by simp [leadingOnesAux, hbit]]
      constructor
      · intro h
        exact absurd h (by omega)
      · intro hall
        exact absurd (hall n (by omega) (by omega)) hbit

theorem le_leadingOnes64_iff (k mask : Nat) :
    k ≤ leadingOnes64 mask ↔ topBits k mask := by
  by_cases hk : k ≤ 64
  · unfold leadingOnes64 topBits
    rw [le_leadingOnesAux_iff mask k 64 hk]
    simp [hk]
  · constructor
    · intro h
      have := leadingOnesAux_le mask 64
      unfold leadingOnes64 at h
      omega
    · intro h
      exact absurd h.1 hk

theorem ack_eq_of_128_le (m : AckMask) (index : Nat)
    (h : 128 ≤ ParcelIndex.dist m.lastIndex index) :
    m.ack index =
      (if 255 - ParcelIndex.dist m.lastIndex index ≤ leadingOnes64 m.mask then
        if 64 ≤ 255 - ParcelIndex.dist m.lastIndex index + 1 then .panic
        else .ok ⟨index,
          ((m.mask <<< (255 - ParcelIndex.dist m.lastIndex index + 1)) % 2 ^ 64)
            ||| (1 <<< (255 - ParcelIndex.dist m.lastIndex index))⟩
      else .err) := by
  unfold AckMask.ack
  rw [if_neg (by omega), if_neg (by omega)]

theorem and_mask_window (x : Nat) :
    (x &&& 0xFFC00000 = 0x400000) ↔
      (x.testBit 22 = true ∧ x.testBit 23 = false ∧ x.testBit 24 = false ∧
        ∀ j, 25 ≤ j → j ≤ 31 → x.testBit j = false) := by
  have hC : ∀ i : Nat, (0xFFC00000 : Nat).testBit i
      = (decide (22 ≤ i) && decide (i ≤ 31)) := by
    intro i
    rw [show (0xFFC00000 : Nat) = (2 ^ 10 - 1) <<< 22 by decide]
    rw [Nat.testBit_shiftLeft, Nat.testBit_two_pow_sub_one]
    rcases Nat.lt_or_ge i 22 with h | h
    · simp [show ¬ (22 ≤ i) by omega]
    · rw [show (decide (i ≥ 22)) = true by simpa using h]
      simp only [Bool.true_and]
      rw [decide_eq_decide]
      omega
  have hR : ∀ i : Nat, (0x400000 : Nat).testBit i = decide (i = 22) := by
    intro i
    rw [show (0x400000 : Nat) = 2 ^ 22 by decide, Nat.testBit_two_pow]
    rw [decide_eq_decide]
    exact eq_comm
  constructor
  · intro h
    refine ⟨?_, ?_, ?_, ?_⟩
    · have := congrArg (Nat.testBit · 22) h
      simpa [Nat.testBit_and, hC, hR] using this
    · have := congrArg (Nat.testBit · 23) h
      simpa [Nat.testBit_and, hC, hR] using this
    · have := congrArg (Nat.testBit · 24) h
      simpa [Nat.testBit_and, hC, hR] using this
    · intro j h25 h31
      have := congrArg (Nat.testBit · j) h
      simp only [Nat.testBit_and, hC, hR] at this
      have h1 : 22 ≤ j := by omega
      have h2 : j ≤ 31 := by omega
      have h3 : ¬ (j = 22) := by omega
      simpa [h1, h2, h3] using this
  · rintro ⟨h22, h23, h24, hrest⟩
    apply Nat.eq_of_testBit_eq
    intro i
    rw [Nat.testBit_and, hC, hR]
    by_cases hlo : 22 ≤ i
    · by_cases hhi : i ≤ 31
      · interval_cases i
        · simp [h22]
        · simp [h23]
        · simp [h24]
        · simp [hrest 25 (by omega) (by omega)]
        · simp [hrest 26 (by omega) (by omega)]
        · simp [hrest 27 (by omega) (by omega)]
        · simp [hrest 28 (by omega) (by omega)]
        · simp [hrest 29 (by omega) (by omega)]
        · simp [hrest 30 (by omega) (by omega)]
        · simp [hrest 31 (by omega) (by omega)]
      · simp [hhi, show ¬ (i = 22) by omega]
    · simp [hlo, show ¬ (i = 22) by omega]

theorem sorted_last_max {l : List Nat} {x : Nat} (hs : l.Sorted (· < ·))
    (hlast : l.getLast? = some x) : ∀ y ∈ l, y ≤ x := by
  intro y hy
  have hne : l ≠ [] := by
    intro hnil
    rw [hnil] at hlast
    simp at hlast
  have hdec := List.dropLast_append_getLast hne
  have hxval : l.getLast hne = x := by
    have := List.getLast?_eq_getLast l hne
    rw [hlast] at this
    exact (Option.some_injective _ this.symm)
  rw [← hdec] at hs hy
  rcases List.mem_append.mp hy with hy' | hy'
  · have := (List.pairwise_append.mp hs).2.2 y hy' (l.getLast hne) (by simp)
    omega
  · simp at hy'
    omega

theorem sorted_dropLast_lt_last {l : List Nat} {x : Nat} (hs : l.Sorted (· < ·))
    (hlast : l.getLast? = some x) : ∀ y ∈ l.dropLast, y < x := by
  intro y hy
  have hne : l ≠ [] := by
    intro hnil
    rw [hnil] at hlast
    simp at hlast
  have hdec := List.dropLast_append_getLast hne
  have hxval : l.getLast hne = x := by
    have := List.getLast?_eq_getLast l hne
    rw [hlast] at this
    exact (Option.some_injective _ this.symm)
  rw [← hdec] at hs
  have := (List.pairwise_append.mp hs).2.2 y hy (l.getLast hne) (by simp)
  omega

theorem coalesceGo_spec : ∀ (fuel l : Nat) (f : List Nat),
    f.length ≤ fuel → f.Sorted (· < ·) → (∀ x ∈ f, x ≤ l) →
    (coalesceGo fuel l f).2.Sorted (· < ·) ∧
      (∀ x ∈ (coalesceGo fuel l f).2, x < (coalesceGo fuel l f).1 ∧ x ∈ f) ∧
      (coalesceGo fuel l f).1 ≤ l ∧
      (∀ v, (coalesceGo fuel l f).1 < v → v ≤ l → v ∈ f) := by
  intro fuel
  induction fuel with
  | zero =>
    intro l f hlen hs hb
    have hf : f = [] := List.length_eq_zero.mp (by omega)
    subst hf
    refine ⟨by simp [coalesceGo], by simp [coalesceGo], by simp [coalesceGo], ?_⟩
    intro v hv1 hv2
    simp [coalesceGo] at hv1
    omega
  | succ fuel ih =>
    intro l f hlen hs hb
    cases hlast : f.getLast? with
    | none =>
      have hf : f = [] := List.getLast?_eq_none_iff.mp hlast
      subst hf
      refine ⟨by simp [coalesceGo], by simp [coalesceGo], by simp [coalesceGo], ?_⟩
      intro v hv1 hv2
      simp [coalesceGo] at hv1
      omega
    | some x =>
      by_cases hx : x = l
      · have hne : f ≠ [] := by
          intro hnil
          rw [hnil] at hlast
          simp at hlast
        have hgo : coalesceGo (fuel + 1) l f = coalesceGo fuel (l - 1) f.dropLast := by
          simp [coalesceGo, hlast, hx]
        have hlen' : f.dropLast.length ≤ fuel := by
          rw [List.length_dropLast]
          have := List.length_pos.mpr hne
          omega
        have hs' : f.dropLast.Sorted (· < ·) :=
          List.Pairwise.sublist (List.dropLast_sublist f) hs
        have hb' : ∀ y ∈ f.dropLast, y ≤ l - 1 := by
          intro y hy
          have := sorted_dropLast_lt_last hs hlast y hy
          omega
        obtain ⟨ih1, ih2, ih3, ih4⟩ := ih (l - 1) f.dropLast hlen' hs' hb'
        rw [hgo]
        refine ⟨ih1, ?_, by omega, ?_⟩
        · intro z hz
          obtain ⟨hz1, hz2⟩ := ih2 z hz
          exact ⟨hz1, (List.dropLast_sublist f).subset hz2⟩
        · intro v hv1 hv2
          by_cases hvl : v ≤ l - 1
          · exact (List.dropLast_sublist f).subset (ih4 v hv1 hvl)
          · have hveq : v = l := by omega
            rw [hveq, ← hx]
            exact List.mem_of_mem_getLast? hlast
      · have hgo : coalesceGo (fuel + 1) l f = (l, f) := by
          simp [coalesceGo, hlast, hx]
        rw [hgo]
        refine ⟨hs, ?_, le_refl l, ?_⟩
        · intro z hz
          have hzx := sorted_last_max hs hlast z hz
          have hxl : x ≤ l := hb x (List.mem_of_mem_getLast? hlast)
          exact ⟨by omega, hz⟩
        · intro v hv1 hv2
          exact absurd hv1 (by omega)

theorem mem_sortedInsert (l : List Nat) (id y : Nat) :
    y ∈ sortedInsert l id ↔ y = id ∨ y ∈ l := by
  induction l with
  | nil => simp [sortedInsert]
  | cons x xs ih =>
    by_cases hx : id < x
    · simp [sortedInsert, hx]
    · simp only [sortedInsert, if_neg hx, List.mem_cons, ih]
      tauto

theorem sorted_sortedInsert (l : List Nat) (id : Nat)
    (hs : l.Sorted (· < ·)) (hid : id ∉ l) :
    (sortedInsert l id).Sorted (· < ·) := by
  induction l with
  | nil => simp [sortedInsert]
  | cons x xs ih =>
    rw [List.sorted_cons] at hs
    by_cases hx : id < x
    · rw [show sortedInsert (x :: xs) id = id :: x :: xs by simp [sortedInsert, hx]]
      rw [List.sorted_cons]
      refine ⟨?_, List.sorted_cons.mpr hs⟩
      intro b hb
      rcases List.mem_cons.mp hb with rfl | hb'
      · exact hx
      · have := hs.1 b hb'
        omega
    · have hxid : x < id := by
        have : id ≠ x := by
          intro heq
          exact hid (by simp [heq])
        omega
      rw [show sortedInsert (x :: xs) id = x :: sortedInsert xs id by
        simp [sortedInsert, hx]]
      rw [List.sorted_cons]
      constructor
      · intro b hb
        rcases (mem_sortedInsert xs id b).mp hb with rfl | hb'
        · exact hxid
        · exact hs.1 b hb'
      · exact ih hs.2 (fun hmem => hid (by simp [hmem]))

theorem free_insert_eq_sortedInsert (l : List Nat) (id : Nat) :
    (match l.findIdx? (fun x => id < x) with
      | some pos => l.insertIdx pos id
      | none => l ++ [id]) = sortedInsert l id := by
  induction l with
  | nil => simp [sortedInsert, List.findIdx?]
  | cons x xs ih =>
    rw [List.findIdx?_cons]
    by_cases hx : id < x
    · simp [hx, sortedInsert]
    · rw [if_neg (by simpa using hx), List.findIdx?_succ]
      rw [show sortedInsert (x :: xs) id = x :: sortedInsert xs id by
        simp [sortedInsert, hx]]
      cases hfind : xs.findIdx? (fun y => id < y) with
      | none =>
        rw [hfind] at ih
        rw [List.cons_append]
        exact congrArg (List.cons x) ih
      | some p =>
        rw [hfind] at ih
        show List.insertIdx (p + 1) id (x :: xs) = x :: sortedInsert xs id
        rw [List.insertIdx_succ_cons]
        exact congrArg (List.cons x) ih

theorem allocWF_intro (l : Nat) (f : List Nat) (live : List Nat)
    (h1 : l ≤ 65535) (h2 : f.Sorted (· < ·))
    (h3 : ∀ x ∈ f, 1 ≤ x ∧ x < l) (h4 : ∀ x ∈ live, 1 ≤ x ∧ x ≤ l)
    (h5 : live.Nodup) (h6 : ∀ x ∈ f, x ∉ live) :
    AllocWF { lastId := l, freeIds := f } live :=
  ⟨h1, h2, h3, h4, h5, h6⟩

/-! Sanity check: the round trip of the repository's own header test,
`Header::request_connection(12).with_message(4)`, through `write_to` and
`read_from`. -/

theorem header_write_read_same_header :
    Header.writeTo (Header.withMessage (Header.requestConnection 12) 4)
        (List.replicate 64 0)
      = some (32 :: 12 :: 0 :: 0 :: 0 :: 4 :: 0 :: List.replicate 57 0, 7) ∧
    Header.readFrom (32 :: 12 :: 0 :: 0 :: 0 :: 4 :: 0 :: List.replicate 57 0)
      = .ok (Header.withMessage (Header.requestConnection 12) 4) 7 := by
  decide

/-! Claim theorems. -/

/-- C1: the claim states that `to_le_bytes` returns the 9-byte little-endian
representation of a reachable mask and that `from_le_bytes` inverts it.  In
fact `AckMask::to_le_bytes` panics unconditionally: it calls
`copy_from_slice` with a 9-byte destination and the 8-byte `mask` source, a
length mismatch, so no mask (reachable or not) is ever serialized. -/
theorem ackMask_toLeBytes_always_panics (m : AckMask) : m.toLeBytes = none := by
  unfold AckMask.toLeBytes copyFromSlice u64ToLeBytes
  simp

/-- C2 counterexample: for the mask `AckMask::new(0)` and index 1 the
distance is 255, so the window slides forward by `s = 1`; the claim requires
the 1 most-significant bit of the zero mask to be set and predicts
`AckError`, but the code returns `Ok` (it checks only `s - 1 = 0` leading
ones), updating the mask to `(last_index := 1, mask := 1)`. -/
theorem ack_slide_counterexample :
    AckMask.ack (AckMask.new 0) 1 = .ok { lastIndex := 1, mask := 1 } ∧
      ¬ topBits 1 (AckMask.new 0).mask := by
  decide

/-- C2 (amended): for `d = dist(last_index, idx) ≥ 128` and `s = 256 - d`,
`ack(idx)` returns `Ok` iff the `s - 1` most-significant mask bits are all 1
and `s ≤ 63`; on success `last_index` becomes `idx` and the mask becomes
`(bits << s) | (1 << (s-1))` (mod `2^64`); it returns `AckError` (leaving
the mask unchanged) iff the `s - 1` most-significant bits are not all 1.
When the `s - 1` leading bits are all 1 but `s ≥ 64`, the internal `u64`
shift overflows (a debug-build panic) instead. -/
theorem ack_slide_amended (m : AckMask) (index : Nat)
    (hdist : 128 ≤ ParcelIndex.dist m.lastIndex index) :
    ((∃ m', m.ack index = .ok m') ↔
      topBits (256 - ParcelIndex.dist m.lastIndex index - 1) m.mask ∧
        256 - ParcelIndex.dist m.lastIndex index ≤ 63) ∧
    (∀ m', m.ack index = .ok m' →
      m' = ⟨index,
        ((m.mask <<< (256 - ParcelIndex.dist m.lastIndex index)) % 2 ^ 64)
          ||| (1 <<< (256 - ParcelIndex.dist m.lastIndex index - 1))⟩) ∧
    (m.ack index = .err ↔
      ¬ topBits (256 - ParcelIndex.dist m.lastIndex index - 1) m.mask) := by
  have hDlt : ParcelIndex.dist m.lastIndex index < 256 := by
    unfold ParcelIndex.dist
    exact Nat.mod_lt _ (by omega)
  rw [ack_eq_of_128_le m index hdist]
  have hs1 : 256 - ParcelIndex.dist m.lastIndex index - 1
      = 255 - ParcelIndex.dist m.lastIndex index := by omega
  have hs : 256 - ParcelIndex.dist m.lastIndex index
      = 255 - ParcelIndex.dist m.lastIndex index + 1 := by omega
  rw [hs1, hs]
  rw [← le_leadingOnes64_iff]
  by_cases hcond : 255 - ParcelIndex.dist m.lastIndex index ≤ leadingOnes64 m.mask
  · rw [if_pos hcond]
    by_cases hov : 64 ≤ 255 - ParcelIndex.dist m.lastIndex index + 1
    · rw [if_pos hov]
      refine ⟨?_, ?_, ?_⟩
      · simp
        omega
      · intro m' hm'
        exact absurd hm' (by simp)
      · simp [hcond]
    · rw [if_neg hov]
      refine ⟨?_, ?_, ?_⟩
      · simp [hcond]
        omega
      · intro m' hm'
        simpa using hm'.symm
      · simp [hcond]
  · rw [if_neg hcond]
    refine ⟨?_, ?_, ?_⟩
    · simp [hcond]
    · intro m' hm'
      exact absurd hm' (by simp)
    · simp [hcond]

/-- C2 witness: at `AckMask::new(0)` and index 2 (distance 254, slide
`s = 2`) the amended theorem yields `AckError`, since bit 63 of the zero
mask is not set. -/
theorem ack_slide_amended_witness : AckMask.ack (AckMask.new 0) 2 = .err :=
  (ack_slide_amended (AckMask.new 0) 2 (by decide)).2.2.mpr (by decide)

/-- C3: the claim states `write_to` then `read_from` round-trips every valid
header.  The signal `145 = connection | acknowledge | parity` is valid, yet
`write_to` on a header carrying it panics: it calls the unconditionally
panicking `AckMask::to_le_bytes` (C1), so the round trip fails for every
valid header whose signal has the ack-mask bit. -/
theorem header_writeTo_panics_on_ack_header :
    Signal.isValid 145 = true ∧
      Header.writeTo { Header.default with signal := 145 } (List.replicate 32 0)
        = none := by
  decide

/-- C4 counterexample: `try_promote` promotes on a buffered all-zero
datagram (a keep-alive shape: no answer signal, connection id 0, no
handshake id anywhere) whenever the caller predicate accepts, contradicting
the claim that promotion happens only on an accept datagram with a matching
handshake id. -/
theorem tryPromote_counterexample :
    tryPromote 24 (List.replicate 24 0) (fun _ => true) = .promoted 0 ∧
      isSpecAcceptAnswer (List.replicate 24 0) = false := by
  decide

/-- C4 (amended): `try_promote` never inspects a handshake id and never
returns `InvalidAnswer`: with an empty receive buffer it returns `NoAnswer`;
otherwise it applies the caller-supplied predicate to the data segment of
the first buffered packet, promoting to an `Open` connection whose id is
read straight from that packet's header when the predicate accepts, and
returning `PredicateFail` when it rejects. -/
theorem tryPromote_amended (packetByteCount : Nat) (buffer : List Nat)
    (pred : List Nat → Bool) :
    (tryPromote packetByteCount buffer pred = .noAnswer ↔ buffer = []) ∧
    tryPromote packetByteCount buffer pred ≠ .invalidAnswer ∧
    (buffer ≠ [] →
      tryPromote packetByteCount buffer pred
        = (if pred (getDataSegment (buffer.take packetByteCount)) then
            .promoted (readConnectionId (buffer.take packetByteCount))
          else .predicateFail)) := by
  unfold tryPromote
  by_cases hb : buffer.isEmpty
  · have hbe : buffer = [] := List.isEmpty_iff.mp hb
    rw [if_pos hb]
    refine ⟨by simp [hbe], by simp, by simp [hbe]⟩
  · have hne : buffer ≠ [] := fun h => hb (by simp [h])
    rw [if_neg hb]
    by_cases hp : pred (getDataSegment (buffer.take packetByteCount))
    · rw [if_pos hp]
      exact ⟨by simp [hne], by simp, fun _ => rfl⟩
    · rw [if_neg hp]
      exact ⟨by simp [hne], by simp, fun _ => rfl⟩

/-- C4 witness: the amended theorem applied to a concrete 24-byte buffer and
the constant-true predicate. -/
theorem tryPromote_amended_witness :
    tryPromote 24 (List.replicate 24 0) (fun _ => true)
      = .promoted (readConnectionId ((List.replicate 24 0).take 24)) :=
  ((tryPromote_amended 24 (List.replicate 24 0) (fun _ => true)).2.2
    (by decide)).trans (by decide)

/-- C5 counterexample: `PacketIndex::cmp 0 128` is `Less` although
`(128 - 0) mod 256 = 128` does not lie in `[1, 127]`, contradicting the
claimed ordering. -/
theorem packetIndex_cmp_counterexample :
    PacketIndex.cmp 0 128 = .lt ∧ ParcelIndex.dist 128 0 = 128 := by
  decide

/-- C5 (amended): under the `PacketIndex` ordering, `a < b` iff
`(b - a) mod 256 ∈ [1, 129]`, `a = b` iff the distance is 0, and `a > b` iff
the distance lies in `[130, 255]` (the source compares the wrapping
difference `a - b` against `u8::MAX / 2 = 127`). -/
theorem packetIndex_cmp_amended (a b : Nat) (ha : a < 256) (hb : b < 256) :
    (PacketIndex.cmp a b = .lt ↔
      1 ≤ ParcelIndex.dist b a ∧ ParcelIndex.dist b a ≤ 129) ∧
    (PacketIndex.cmp a b = .eq ↔ ParcelIndex.dist b a = 0) ∧
    (PacketIndex.cmp a b = .gt ↔
      130 ≤ ParcelIndex.dist b a ∧ ParcelIndex.dist b a ≤ 255) := by
  unfold PacketIndex.cmp ParcelIndex.dist
  by_cases h0 : (a + 256 - b) % 256 = 0
  · rw [if_pos h0]
    refine ⟨by simp; omega, by simp; omega, by simp; omega⟩
  · rw [if_neg h0]
    by_cases h127 : (a + 256 - b) % 256 < 127
    · rw [if_pos h127]
      refine ⟨by simp; omega, by simp; omega, by simp; omega⟩
    · rw [if_neg h127]
      refine ⟨by simp; omega, by simp; omega, by simp; omega⟩

/-- C5 witness: the amended theorem applied at the indices 0 and 128. -/
theorem packetIndex_cmp_amended_witness : PacketIndex.cmp 0 128 = .lt :=
  (packetIndex_cmp_amended 0 128 (by decide) (by decide)).1.mpr (by decide)

/-- C6 counterexample: a connectionless header carrying the
connection-request bit together with a parcel byte count of 1 is accepted by
`PacketHeader::is_valid`, although the claim requires the parcel byte count
to be zero. -/
theorem connectionless_valid_counterexample :
    connectionlessParcelHeader.isValid = true ∧
      SignalBits.getParcelByteCount connectionlessParcelHeader.signal = 1 := by
  decide

/-- C6 (amended): for a packet header with `connection_id = 0`, `is_valid`
returns true iff the connection-request bit (22) is set, the
connection-closed bit (23) and the synchronized bit (24) are clear, and the
reserved bits 25-31 are zero.  A connectionless header with only the
connection-closed bit set is rejected, and the parcel byte count is not
constrained. -/
theorem connectionless_valid_amended (h : PacketHeader)
    (hc : h.connectionId = 0) :
    h.isValid = true ↔
      h.signal.testBit 22 = true ∧ h.signal.testBit 23 = false ∧
        h.signal.testBit 24 = false ∧
        ∀ j, 25 ≤ j → j ≤ 31 → h.signal.testBit j = false := by
  unfold PacketHeader.isValid
  rw [if_pos hc]
  simp only [SignalBits.isValidConnectionless, beq_iff_eq]
  rw [show SignalBits.ZERO_BITS ||| SignalBits.SYNCHRONIZED_BIT
        ||| SignalBits.CONNECTION_CLOSED_BIT ||| SignalBits.CONNECTION_REQUEST_BIT
      = 0xFFC00000 from by decide]
  rw [show SignalBits.CONNECTION_REQUEST_BIT = 0x400000 from by decide]
  exact and_mask_window h.signal

/-- C6 witness: the amended theorem applied to the concrete connectionless
header with a nonzero parcel byte count. -/
theorem connectionless_valid_amended_witness :
    connectionlessParcelHeader.isValid = true :=
  (connectionless_valid_amended connectionlessParcelHeader rfl).mpr (by decide)

/-- C7 counterexample: after allocating ids 1, 2, 3 and freeing 1 then 2,
`allocate()` returns 2, the largest free id, not the lowest (1); this is the
behaviour the repository's own `allocator_reuses_ids` test asserts. -/
theorem allocator_counterexample :
    Allocator.allocate { lastId := 0, freeIds := [] }
        = .ok (1, { lastId := 1, freeIds := [] }) ∧
      Allocator.allocate { lastId := 1, freeIds := [] }
        = .ok (2, { lastId := 2, freeIds := [] }) ∧
      Allocator.allocate { lastId := 2, freeIds := [] }
        = .ok (3, { lastId := 3, freeIds := [] }) ∧
      Allocator.free { lastId := 3, freeIds := [] } 1
        = { lastId := 3, freeIds := [1] } ∧
      Allocator.free { lastId := 3, freeIds := [1] } 2
        = { lastId := 3, freeIds := [1, 2] } ∧
      Allocator.allocate { lastId := 3, freeIds := [1, 2] }
        = .ok (2, { lastId := 3, freeIds := [1] }) ∧
      (2 : Nat) ≠ 1 :=
  ⟨rfl, rfl, rfl, by decide, by decide, rfl, by decide⟩

/-- C7 (amended): on any well-formed allocator state, whenever the free list
is non-empty `allocate()` pops and returns the largest free id (so freed ids
are always handed out before any fresh id), the returned id is never one
held by a live connection, and both `allocate` and `free` preserve
well-formedness (in particular no id is ever held by two live connections at
once). -/
theorem allocator_amended (a : Allocator) (live : List Nat)
    (hwf : AllocWF a live) :
    (∀ x, a.freeIds.getLast? = some x →
      a.allocate = .ok (x, { lastId := a.lastId, freeIds := a.freeIds.dropLast })
        ∧ x ∈ a.freeIds ∧ ∀ y ∈ a.freeIds, y ≤ x) ∧
    (∀ id a', a.allocate = .ok (id, a') → id ∉ live) ∧
    (∀ id a', a.allocate = .ok (id, a') → AllocWF a' (id :: live)) ∧
    (∀ id, id ∈ live → AllocWF (a.free id) (live.erase id)) := by
  obtain ⟨hlast65535, hsorted, hfreebound, hlivebound, hnodup, hdisj⟩ := hwf
  refine ⟨?_, ?_, ?_, ?_⟩
  · intro x hx
    refine ⟨?_, List.mem_of_mem_getLast? hx, sorted_last_max hsorted hx⟩
    unfold Allocator.allocate
    rw [hx]
  · intro id a' hok
    unfold Allocator.allocate at hok
    cases hlast : a.freeIds.getLast? with
    | none =>
      rw [hlast] at hok
      by_cases hmax : a.lastId = 65535
      · rw [if_pos hmax] at hok
        exact absurd hok (by simp)
      · rw [if_neg hmax] at hok
        simp only [Except.ok.injEq, Prod.mk.injEq] at hok
        obtain ⟨hid, ha'⟩ := hok
        intro hmem
        have := hlivebound id hmem
        omega
    | some x =>
      rw [hlast] at hok
      simp only [Except.ok.injEq, Prod.mk.injEq] at hok
      obtain ⟨hid, ha'⟩ := hok
      intro hmem
      have hxin := List.mem_of_mem_getLast? hlast
      exact hdisj x hxin (hid ▸ hmem)
  · intro id a' hok
    unfold Allocator.allocate at hok
    cases hlast : a.freeIds.getLast? with
    | none =>
      have hf : a.freeIds = [] := List.getLast?_eq_none_iff.mp hlast
      rw [hlast] at hok
      by_cases hmax : a.lastId = 65535
      · rw [if_pos hmax] at hok
        exact absurd hok (by simp)
      · rw [if_neg hmax] at hok
        simp only [Except.ok.injEq, Prod.mk.injEq] at hok
        obtain ⟨hid, ha'⟩ := hok
        subst ha'
        apply allocWF_intro
        · omega
        · rw [hf]
          simp
        · rw [hf]
          simp
        · intro x hx
          rcases List.mem_cons.mp hx with rfl | hx'
          · omega
          · have := hlivebound x hx'
            omega
        · rw [List.nodup_cons]
          refine ⟨?_, hnodup⟩
          intro hmem
          have := hlivebound _ hmem
          omega
        · rw [hf]
          simp
    | some x =>
      rw [hlast] at hok
      simp only [Except.ok.injEq, Prod.mk.injEq] at hok
      obtain ⟨hid, ha'⟩ := hok
      subst ha'
      have hxin := List.mem_of_mem_getLast? hlast
      have hxb := hfreebound x hxin
      apply allocWF_intro
      · exact hlast65535
      · exact List.Pairwise.sublist (List.dropLast_sublist _) hsorted
      · intro y hy
        exact hfreebound y ((List.dropLast_sublist _).subset hy)
      · intro y hy
        rcases List.mem_cons.mp hy with rfl | hy'
        · omega
        · exact hlivebound y hy'
      · rw [List.nodup_cons]
        exact ⟨fun hmem => hdisj x hxin (hid ▸ hmem), hnodup⟩
      · intro y hy
        have hylt := sorted_dropLast_lt_last hsorted hlast y hy
        have hyin := (List.dropLast_sublist _).subset hy
        intro hmem
        rcases List.mem_cons.mp hmem with rfl | hmem'
        · omega
        · exact hdisj y hyin hmem'
  · intro id hid
    have hid1 : 1 ≤ id := (hlivebound id hid).1
    unfold Allocator.free
    by_cases hideq : id = a.lastId
    · rw [if_pos hideq]
      have hb : ∀ x ∈ a.freeIds, x ≤ a.lastId - 1 := by
        intro x hx
        have := hfreebound x hx
        omega
      obtain ⟨c1, c2, c3, c4⟩ := coalesceGo_spec a.freeIds.length (a.lastId - 1)
        a.freeIds (le_refl _) hsorted hb
      show AllocWF
        { lastId := (coalesceGo a.freeIds.length (a.lastId - 1) a.freeIds).1,
          freeIds := (coalesceGo a.freeIds.length (a.lastId - 1) a.freeIds).2 }
        (live.erase id)
      apply allocWF_intro
      · omega
      · exact c1
      · intro x hx
        obtain ⟨hx1, hx2⟩ := c2 x hx
        exact ⟨(hfreebound x hx2).1, hx1⟩
      · intro x hx
        have hxlive := List.mem_of_mem_erase hx
        have hxne : x ≠ id := by
          intro heq
          exact (List.Nodup.not_mem_erase hnodup) (heq ▸ hx)
        refine ⟨(hlivebound x hxlive).1, ?_⟩
        by_contra hgt
        push_neg at hgt
        have hxle : x ≤ a.lastId - 1 := by
          have := (hlivebound x hxlive).2
          omega
        have : x ∈ a.freeIds := c4 x hgt hxle
        exact hdisj x this hxlive
      · exact hnodup.erase id
      · intro x hx
        have := (c2 x hx).2
        intro hmem
        exact hdisj x this (List.mem_of_mem_erase hmem)
    · rw [if_neg hideq]
      have hlt : id < a.lastId := by
        have := (hlivebound id hid).2
        omega
      have hnotfree : id ∉ a.freeIds := fun h => hdisj id h hid
      have main : AllocWF { lastId := a.lastId, freeIds := sortedInsert a.freeIds id }
          (live.erase id) := by
        apply allocWF_intro
        · exact hlast65535
        · exact sorted_sortedInsert _ _ hsorted hnotfree
        · intro x hx
          rcases (mem_sortedInsert _ _ _).mp hx with rfl | hx'
          · exact ⟨hid1, hlt⟩
          · exact hfreebound x hx'
        · intro x hx
          exact hlivebound x (List.mem_of_mem_erase hx)
        · exact hnodup.erase id
        · intro x hx hmem
          have hxlive := List.mem_of_mem_erase hmem
          rcases (mem_sortedInsert _ _ _).mp hx with rfl | hx'
          · exact (List.Nodup.not_mem_erase hnodup) hmem
          · exact hdisj x hx' hxlive
      cases hfind : a.freeIds.findIdx? (fun x => id < x) with
      | none =>
        have heq : a.freeIds ++ [id] = sortedInsert a.freeIds id := by
          have := free_insert_eq_sortedInsert a.freeIds id
          rw [hfind] at this
          exact this
        show AllocWF { lastId := a.lastId, freeIds := a.freeIds ++ [id] }
          (live.erase id)
        rw [heq]
        exact main
      | some pos =>
        have heq : a.freeIds.insertIdx pos id = sortedInsert a.freeIds id := by
          have := free_insert_eq_sortedInsert a.freeIds id
          rw [hfind] at this
          exact this
        show AllocWF { lastId := a.lastId, freeIds := a.freeIds.insertIdx pos id }
          (live.erase id)
        rw [heq]
        exact main

/-- C7 witness: the amended theorem applied to the well-formed state with
`last_id = 3`, free ids `[1, 2]` and the single live id 3. -/
theorem allocator_amended_witness :
    Allocator.allocate { lastId := 3, freeIds := [1, 2] }
        = .ok (2, { lastId := 3, freeIds := [1] })
      ∧ (2 : Nat) ∉ [3] := by
  have h := allocator_amended { lastId := 3, freeIds := [1, 2] } [3] (by decide)
  exact ⟨(h.1 2 rfl).1, by decide⟩

/-- C8: the claim states that acknowledging the current `last_index` again
(distance 0, a duplicate datagram) returns `Ok` and changes nothing without
panicking.  In fact both `ack` and `unchecked_ack` take the `dist <= 64`
branch and evaluate `1 << (dist - 1)` with `dist = 0`, an unsigned subtract
overflow: a debug build panics (and a release build wraps the shift to bit
63, spuriously acknowledging `last_index - 64`). -/
theorem ack_duplicate_panics :
    AckMask.ack (AckMask.new 12) 12 = .panic ∧
      AckMask.uncheckedAck (AckMask.new 12) 12 = .panic := by
  decide

/-- C9: the claim states that `with_stream()` on a connected, indexed signal
makes `has_stream()` true.  In fact `Signal::with_stream` ors in
`ACKNOWLEDGE_MASK` instead of `STREAM_MASK`, so the resulting signal has an
ack mask and `has_stream()` stays false (connection and index bits are
preserved, as claimed). -/
theorem withStream_sets_wrong_bit :
    Signal.isConnected (Signal.indexed Signal.connected) = true ∧
      Signal.isIndexed (Signal.indexed Signal.connected) = true ∧
      Signal.hasStream (Signal.withStream (Signal.indexed Signal.connected)) = false ∧
      Signal.hasAckMask (Signal.withStream (Signal.indexed Signal.connected)) = true ∧
      Signal.isConnected (Signal.withStream (Signal.indexed Signal.connected)) = true ∧
      Signal.isIndexed (Signal.withStream (Signal.indexed Signal.connected)) = true := by
  decide

/-- C10: the claim states that n pops return the n buffered datagrams' exact
bytes and addresses exactly once.  In fact `pop` removes the info record but
never drains the shared byte vector, always copying its tail: after pushing
`[1]` from address 1 and `[2, 2]` from address 2, the first pop correctly
returns `[2, 2]`, but the second returns the tail byte `[2]` with address 1
instead of the datagram `[1]`. -/
theorem demux_pop_returns_wrong_bytes :
    DemuxQueue.push (DemuxQueue.push { bytes := [], infos := [] } 1 [1]) 2 [2, 2]
        = { bytes := [1, 2, 2], infos := [(1, 1), (2, 2)] } ∧
      DemuxQueue.pop { bytes := [1, 2, 2], infos := [(1, 1), (2, 2)] }
        = some ((2, 2), [2, 2], { bytes := [1, 2, 2], infos := [(1, 1)] }) ∧
      DemuxQueue.pop { bytes := [1, 2, 2], infos := [(1, 1)] }
        = some ((1, 1), [2], { bytes := [1, 2, 2], infos := [] }) ∧
      ([2] : List Nat) ≠ [1] := by
  decide
